import Mathlib

/-!
Verification development for the nocodb webhook / lookup-query core.

The definitions below are a shallow embedding of
`packages/nocodb/src/helpers/webhookHelpers.ts` (filter condition
evaluation, webhook payload construction, webhook dispatch gating,
template rendering, hrtime formatting) and of
`generateLookupSelectQuery` (the lookup/LTAR select-query builder).

JavaScript runtime values that the evaluator manipulates are modelled by
the inductive type `JVal`; `null` and `undefined` are distinct values,
exactly as in the source, because `validateCondition` threads a nullable
accumulator and can return `undefined` through an early `return`.
Date values are carried as abstract calendar-day indices (`Int`); the
dayjs month/year arithmetic, which is external-library behaviour, is
supplied by a `DayjsEnv` parameter.
-/

namespace Nocodb

/-- Model of a JavaScript value as it flows through `validateCondition`:
`null`, `undefined`, booleans, (integer) numbers, strings, a date value
abstracted to a calendar-day index, a single user object `{id}`, and an
array of user objects (kept as the list of their ids). -/
inductive JVal where
  | jnull
  | jundefined
  | jbool (b : Bool)
  | jnum (n : Int)
  | jstr (s : String)
  | jdate (day : Int)
  | juser (id : String)
  | jusers (ids : List String)
deriving DecidableEq, Repr

/-- JavaScript truthiness: `null`, `undefined`, `false`, `0` and `""` are
falsy; objects (dates, user objects, arrays — even empty arrays) are
truthy. -/
def truthy : JVal → Bool
  | .jnull => false
  | .jundefined => false
  | .jbool b => b
  | .jnum n => n != 0
  | .jstr s => s != ""
  | .jdate _ => true
  | .juser _ => true
  | .jusers _ => true

/-- A data record: field title to value.  `data[field]` on a missing key
yields `undefined`. -/
abbrev Record := List (String × JVal)

/-- `data[field]` lookup. -/
def getField (data : Record) (field : String) : JVal :=
  match data.find? (fun p => p.1 == field) with
  | some p => p.2
  | none => .jundefined

/-- JavaScript whitespace test for `trim`. -/
def isJsWhitespace (c : Char) : Bool :=
  c == ' ' || c == '\t' || c == '\n' || c == '\r'

/-- `s.trim()` — strip whitespace from both ends. -/
def jsTrim (s : String) : String :=
  String.mk (((s.data.dropWhile isJsWhitespace).reverse.dropWhile isJsWhitespace).reverse)

/-- Worker for single-character `split`. -/
def splitCharAux (sep : Char) (cur : List Char) : List Char → List String
  | [] => [String.mk cur.reverse]
  | c :: rest =>
    if c == sep then String.mk cur.reverse :: splitCharAux sep [] rest
    else splitCharAux sep (c :: cur) rest

/-- JavaScript split on a single-character separator (`"".split(sep)`
is `[""]`). -/
def jsSplitChar (sep : Char) (s : String) : List String :=
  splitCharAux sep [] s.data

/-- `s.split(',')`. -/
def jsSplitComma (s : String) : List String :=
  jsSplitChar ',' s

/-- JavaScript unary-plus numeric coercion, `none` standing for `NaN`
(`+null = 0`, `+undefined = NaN`, `+"" = 0`, numeric strings parse,
other strings and objects give `NaN`; numbers are modelled as integers). -/
def jsToNumOpt : JVal → Option Int
  | .jnull => some 0
  | .jundefined => none
  | .jbool b => some (if b then 1 else 0)
  | .jnum n => some n
  | .jstr s => if jsTrim s == "" then some 0 else (jsTrim s).toInt?
  | .jdate _ => none
  | .juser _ => none
  | .jusers _ => none

/-- JavaScript loose equality `==` restricted to the value shapes the
evaluator feeds it: same-type comparison, `null == undefined`, and
number/string/boolean numeric coercion.  Object-to-primitive coercion is
not modelled (objects compare unequal to primitives here). -/
def looseEq : JVal → JVal → Bool
  | .jnull, .jnull => true
  | .jnull, .jundefined => true
  | .jundefined, .jnull => true
  | .jundefined, .jundefined => true
  | .jbool a, .jbool b => a == b
  | .jnum a, .jnum b => a == b
  | .jstr a, .jstr b => a == b
  | .jnum a, .jstr s =>
    match jsToNumOpt (.jstr s) with
    | some m => a == m
    | none => false
  | .jstr s, .jnum b =>
    match jsToNumOpt (.jstr s) with
    | some m => m == b
    | none => false
  | .jbool a, .jnum b => (if a then (1 : Int) else 0) == b
  | .jnum a, .jbool b => a == (if b then (1 : Int) else 0)
  | .jbool a, .jstr s =>
    match jsToNumOpt (.jstr s) with
    | some m => (if a then (1 : Int) else 0) == m
    | none => false
  | .jstr s, .jbool b =>
    match jsToNumOpt (.jstr s) with
    | some m => m == (if b then (1 : Int) else 0)
    | none => false
  | _, _ => false

/-- `data[field]?.toString?.()`: string coercion of a primitive;
`none` when the value is `null`/`undefined` (the optional chain yields
`undefined`).  Object `toString` is not modelled. -/
def jsToStr : JVal → Option String
  | .jstr s => some s
  | .jnum n => some (toString n)
  | .jbool b => some (toString b)
  | _ => none

/-- The UI column types the evaluator and query builder dispatch on. -/
inductive UIType where
  | Date
  | DateTime
  | CreatedTime
  | LastModifiedTime
  | User
  | CreatedBy
  | LastModifiedBy
  | Lookup
  | LinkToAnotherRecord
  | Links
  | Rollup
  | Formula
  | QrCode
  | Barcode
  | Attachment
  | SingleLineText
  | Other
deriving DecidableEq, Repr

/-- Membership in `[UITypes.Date, UITypes.DateTime, UITypes.CreatedTime,
UITypes.LastModifiedTime]`. -/
def dateFamily : UIType → Bool
  | .Date => true
  | .DateTime => true
  | .CreatedTime => true
  | .LastModifiedTime => true
  | _ => false

/-- Membership in `[UITypes.User, UITypes.CreatedBy, UITypes.LastModifiedBy]`. -/
def userFamily : UIType → Bool
  | .User => true
  | .CreatedBy => true
  | .LastModifiedBy => true
  | _ => false

/-- Membership in `['empty', 'blank', 'notempty', 'notblank']`. -/
def emptyFamily (op : String) : Bool :=
  op == "empty" || op == "blank" || op == "notempty" || op == "notblank"

/-- The column fields `validateCondition` reads after
`filter.getColumn`: its title (the record key), its `uidt`, and whether
`column.meta.date_format` is a month-only format. -/
structure ColumnT where
  title : String
  uidt : UIType
  dateMonthFormat : Bool
deriving DecidableEq, Repr

/-- The fields of a leaf filter that the evaluator reads. -/
structure LeafData where
  col : ColumnT
  comparison_op : String
  comparison_sub_op : String
  value : JVal
deriving DecidableEq, Repr

/-- A filter-tree node: a leaf comparison or a group with ordered
children; both carry their own `logical_op` (the empty string models an
unset operator, which the source treats as the `and` default). -/
inductive Filter where
  | leaf (d : LeafData) (logical_op : String)
  | group (children : List Filter) (logical_op : String)
deriving Repr

/-- The `logical_op` of a filter node. -/
def Filter.logicalOp : Filter → String
  | .leaf _ lop => lop
  | .group _ lop => lop

/-- External dayjs month/year arithmetic over abstract day indices:
`monthStart` models `.date(1)`, `addMonths`/`addYears` model
`.add(n, 'month' | 'year')`.  Day and week arithmetic is exact
(`add(n, 'day') = +n`, `add(n, 'week') = +7n`) and done inline. -/
structure DayjsEnv where
  monthStart : Int → Int
  addMonths : Int → Int → Int
  addYears : Int → Int → Int

/-- An all-identity dayjs environment, used to instantiate theorems. -/
def dayjsEnv0 : DayjsEnv where
  monthStart := id
  addMonths := fun d _ => d
  addYears := fun d _ => d

/-- `dayjs(v)` parsing to a day index, `none` standing for an Invalid
Date (every comparison against it is false).  `dayjs(undefined)` is the
current instant, hence `now`; `dayjs(null)` is invalid.  Concrete date
values are carried as `jdate`; parsing of date strings is abstracted
(date filter values are modelled as `jdate`). -/
def parseDayAt (now : Int) : JVal → Option Int
  | .jdate d => some d
  | .jnum n => some n
  | .jundefined => some now
  | _ => none

/-- Comparison on possibly-invalid dates: false whenever either side is
invalid, matching dayjs `isSame`/`isAfter`/… on an Invalid Date. -/
def optCmp (f : Int → Int → Bool) : Option Int → Option Int → Bool
  | some a, some b => f a b
  | _, _ => false

/-- dayjs `isBetween` at day granularity (default exclusive bounds). -/
def optBetween (lo x hi : Option Int) : Bool :=
  match lo, x, hi with
  | some a, some v, some b => a < v && v < b
  | _, _, _ => false

/-- `dataVal === '' || dataVal === null || dataVal === undefined`. -/
def isEmptyVal (v : JVal) : Bool :=
  v == .jstr "" || v == .jnull || v == .jundefined

/-- Result of the date sub-operation switch: either the bare `return;`
(for `daysAgo`/`daysFromNow`/`exactDate`/`pastNumberOfDays`/
`nextNumberOfDays` with a falsy filter value) that aborts the whole
`validateCondition` call, or the resolved comparison day. -/
inductive SubOpRes where
  | earlyRet
  | day (d : Option Int)
deriving DecidableEq, Repr

/-- Numeric coercion used inside `now.add(±filterVal, 'day')`; a value
that is `NaN` there makes the resulting dayjs invalid. -/
def addDaysOpt (now : Int) (sign : Int) (v : JVal) : Option Int :=
  match jsToNumOpt v with
  | some n => some (now + sign * n)
  | none => none

/-- The `switch (filter.comparison_sub_op)` of `validateCondition`
resolving the filter comparison day from `now` (already truncated to the
month start when the column uses a month-only format). -/
def resolveSubOp (env : DayjsEnv) (now : Int) (subOp : String) (filterVal : JVal) :
    SubOpRes :=
  match subOp with
  | "today" => .day (some now)
  | "tomorrow" => .day (some (now + 1))
  | "yesterday" => .day (some (now - 1))
  | "oneWeekAgo" => .day (some (now - 7))
  | "oneWeekFromNow" => .day (some (now + 7))
  | "oneMonthAgo" => .day (some (env.addMonths now (-1)))
  | "oneMonthFromNow" => .day (some (env.addMonths now 1))
  | "daysAgo" =>
    if truthy filterVal then .day (addDaysOpt now (-1) filterVal) else .earlyRet
  | "daysFromNow" =>
    if truthy filterVal then .day (addDaysOpt now 1 filterVal) else .earlyRet
  | "exactDate" =>
    if truthy filterVal then .day (parseDayAt now filterVal) else .earlyRet
  | "pastWeek" => .day (some (now - 7))
  | "pastMonth" => .day (some (env.addMonths now (-1)))
  | "pastYear" => .day (some (env.addYears now (-1)))
  | "nextWeek" => .day (some (now + 7))
  | "nextMonth" => .day (some (env.addMonths now 1))
  | "nextYear" => .day (some (env.addYears now 1))
  | "pastNumberOfDays" =>
    if truthy filterVal then .day (addDaysOpt now (-1) filterVal) else .earlyRet
  | "nextNumberOfDays" =>
    if truthy filterVal then .day (addDaysOpt now 1 filterVal) else .earlyRet
  | _ => .day (parseDayAt now filterVal)

/-- The `switch (filter.comparison_op)` of the date branch, entered when
`dataVal` is truthy.  `res0` is the value `res` already holds from the
initial `if (filterVal) res = dayjs(filterVal).isSame(dataVal, 'day')`
assignment; it survives when no case (or no `isWithin` sub-case)
matches.  `rawNow` is the untruncated "now" used by `isWithin`
(re-created there from `new Date()`, so never month-truncated). -/
def dateCompareOp (rawNow : Int) (op subOp : String) (dataDay fday : Option Int)
    (dataVal res0 : JVal) : JVal :=
  match op with
  | "eq" => .jbool (optCmp (fun a b => a == b) dataDay fday)
  | "neq" => .jbool (!optCmp (fun a b => a == b) dataDay fday)
  | "gt" => .jbool (optCmp (fun a b => a > b) dataDay fday)
  | "lt" => .jbool (optCmp (fun a b => a < b) dataDay fday)
  | "lte" => .jbool (optCmp (fun a b => a ≤ b) dataDay fday)
  | "le" => .jbool (optCmp (fun a b => a ≤ b) dataDay fday)
  | "gte" => .jbool (optCmp (fun a b => a ≥ b) dataDay fday)
  | "ge" => .jbool (optCmp (fun a b => a ≥ b) dataDay fday)
  | "empty" => .jbool (isEmptyVal dataVal)
  | "blank" => .jbool (isEmptyVal dataVal)
  | "notempty" => .jbool (!isEmptyVal dataVal)
  | "notblank" => .jbool (!isEmptyVal dataVal)
  | "isWithin" =>
    match subOp with
    | "pastWeek" => .jbool (optBetween fday dataDay (some rawNow))
    | "pastMonth" => .jbool (optBetween fday dataDay (some rawNow))
    | "pastYear" => .jbool (optBetween fday dataDay (some rawNow))
    | "pastNumberOfDays" => .jbool (optBetween fday dataDay (some rawNow))
    | "nextWeek" => .jbool (optBetween (some rawNow) dataDay fday)
    | "nextMonth" => .jbool (optBetween (some rawNow) dataDay fday)
    | "nextYear" => .jbool (optBetween (some rawNow) dataDay fday)
    | "nextNumberOfDays" => .jbool (optBetween (some rawNow) dataDay fday)
    | _ => res0
  | _ => res0

/-- `data[field].map(u => u.id)` extraction for User-family columns: an
array maps to its ids, a single user object with a truthy id to a
singleton, anything else to the empty set. -/
def userIdsOf : JVal → List String
  | .jusers ids => ids
  | .juser id => if id == "" then [] else [id]
  | _ => []

/-- `filter.value?.split(',').map(v => v.trim()) ?? []` — a nullish
filter value gives the empty list.  (A non-string, non-nullish filter
value would throw in JS; those shapes are not used with the split
operators and are mapped to the empty list here.) -/
def splitTrim : JVal → List String
  | .jstr s => (jsSplitComma s).map (fun v => jsTrim v)
  | _ => []

/-- `data[field]?.split(',') ?? []` — no trimming on the record side. -/
def splitComma : JVal → List String
  | .jstr s => jsSplitComma s
  | _ => []

/-- The `switch (filter.comparison_op)` over User-family columns: set
membership tests, cardinality tests, and a deliberate `false` fallback
for any unsupported operator. -/
def userCompareOp (op : String) (ids fvals : List String) : Bool :=
  match op with
  | "anyof" => ids.any (fun id => fvals.contains id)
  | "nanyof" => !ids.any (fun id => fvals.contains id)
  | "allof" => fvals.all (fun id => ids.contains id)
  | "nallof" => !fvals.all (fun id => ids.contains id)
  | "empty" => ids.isEmpty
  | "blank" => ids.isEmpty
  | "notempty" => !ids.isEmpty
  | "notblank" => !ids.isEmpty
  | _ => false

/-- `val == filter.value` after the `typeof filter.value` coercion
switch: a boolean filter value compares against `!!data[field]`, a
numeric one against `+data[field]` (`NaN` compares unequal), anything
else against the raw record value. -/
def coercedEq (dval fval : JVal) : Bool :=
  match fval with
  | .jbool _ => looseEq (.jbool (truthy dval)) fval
  | .jnum m =>
    match jsToNumOpt dval with
    | some n => n == m
    | none => false
  | _ => looseEq dval fval

/-- `data[field]?.toString?.()?.toLowerCase()?.indexOf(filter.value?.toLowerCase()) > -1`.
A nullish record value short-circuits the chain to `undefined`, and
`undefined > -1` is false. -/
def likeRes (dval fval : JVal) : Bool :=
  match jsToStr dval, fval with
  | some s, .jstr fv =>
    if fv == "" then true else (s.toLower.splitOn fv.toLower).length ≥ 2
  | _, _ => false

/-- The `nlike` comparison: `… === -1`; with a nullish record value the
chain yields `undefined` and `undefined === -1` is false. -/
def nlikeRes (dval fval : JVal) : Bool :=
  match jsToStr dval, fval with
  | some s, .jstr fv =>
    if fv == "" then false else (s.toLower.splitOn fv.toLower).length == 1
  | _, _ => false

/-- `+data[field] OP +filter.value`; false when either side is `NaN`. -/
def numCmp (f : Int → Int → Bool) (a b : JVal) : Bool :=
  match jsToNumOpt a, jsToNumOpt b with
  | some x, some y => f x y
  | _, _ => false

/-- The generic (non-date, non-user) `switch (filter.comparison_op)`.
The switch has no `default` case, so an unknown operator leaves `res`
as `undefined`. -/
def genericCompareOp (d : LeafData) (dval : JVal) : JVal :=
  match d.comparison_op with
  | "eq" => .jbool (coercedEq dval d.value)
  | "neq" => .jbool (!coercedEq dval d.value)
  | "like" => .jbool (likeRes dval d.value)
  | "nlike" => .jbool (nlikeRes dval d.value)
  | "empty" => .jbool (isEmptyVal dval)
  | "blank" => .jbool (isEmptyVal dval)
  | "notempty" => .jbool (!isEmptyVal dval)
  | "notblank" => .jbool (!isEmptyVal dval)
  | "checked" => .jbool (truthy dval)
  | "notchecked" => .jbool (!truthy dval)
  | "null" => .jbool (dval == .jnull)
  | "notnull" => .jbool (dval != .jnull)
  | "allof" => .jbool ((splitTrim d.value).all (fun it => (splitComma dval).contains it))
  | "anyof" => .jbool ((splitTrim d.value).any (fun it => (splitComma dval).contains it))
  | "nallof" => .jbool (!(splitTrim d.value).all (fun it => (splitComma dval).contains it))
  | "nanyof" => .jbool (!(splitTrim d.value).any (fun it => (splitComma dval).contains it))
  | "lt" => .jbool (numCmp (fun a b => a < b) dval d.value)
  | "lte" => .jbool (numCmp (fun a b => a ≤ b) dval d.value)
  | "le" => .jbool (numCmp (fun a b => a ≤ b) dval d.value)
  | "gt" => .jbool (numCmp (fun a b => a > b) dval d.value)
  | "gte" => .jbool (numCmp (fun a b => a ≥ b) dval d.value)
  | "ge" => .jbool (numCmp (fun a b => a ≥ b) dval d.value)
  | _ => .jundefined

/-- Result of evaluating one leaf filter: `ret` models the bare
`return;` inside the date sub-operation switch, which aborts the whole
enclosing `validateCondition` call with `undefined`; `val` carries the
computed `res`. -/
inductive LeafRes where
  | ret
  | val (v : JVal)
deriving DecidableEq, Repr

/-- Evaluation of one leaf filter against the record — the body of the
`else` branch of `if (filter.is_group)` in `validateCondition`. -/
def evalLeaf (env : DayjsEnv) (now : Int) (data : Record) (d : LeafData) : LeafRes :=
  let field := d.col.title
  let val := getField data field
  if dateFamily d.col.uidt && !emptyFamily d.comparison_op then
    -- date branch: `dataVal` is captured before the month truncation of
    -- `val` (which is never read again, so that truncation is dead code);
    -- only `now` is truncated for month-only formats.
    let dataVal := val
    let filterVal := d.value
    let now1 := if d.col.dateMonthFormat then env.monthStart now else now
    let res0 : JVal :=
      if truthy filterVal then
        .jbool (optCmp (fun a b => a == b) (parseDayAt now1 filterVal)
          (parseDayAt now1 dataVal))
      else .jundefined
    match resolveSubOp env now1 d.comparison_sub_op filterVal with
    | .earlyRet => .ret
    | .day fday =>
      if truthy dataVal then
        .val (dateCompareOp now d.comparison_op d.comparison_sub_op
          (parseDayAt now1 dataVal) fday dataVal res0)
      else .val res0
  else if userFamily d.col.uidt then
    .val (.jbool (userCompareOp d.comparison_op (userIdsOf val) (splitTrim d.value)))
  else
    .val (genericCompareOp d val)

/-- `isValid ?? b`. -/
def nullishCoalesce (a b : JVal) : JVal :=
  match a with
  | .jnull => b
  | .jundefined => b
  | v => v

/-- One step of the accumulator update, the
`switch (filter.logical_op)` at the end of the loop body:
`or` is `isValid || !!res`, `not` is `isValid && !res`, and the
`and`/default case is `(isValid ?? true) && res` — all with JavaScript
short-circuit semantics returning the deciding operand itself. -/
def combine (lop : String) (acc res : JVal) : JVal :=
  match lop with
  | "or" => if truthy acc then acc else .jbool (truthy res)
  | "not" => if truthy acc then .jbool (!truthy res) else acc
  | _ =>
    let lhs := nullishCoalesce acc (.jbool true)
    if truthy lhs then res else lhs

mutual

/-- The `for (const _filter of filters)` loop of `validateCondition`,
folding each sibling's result into the `isValid` accumulator; the bare
`return;` of a leaf (see `LeafRes.ret`) aborts the loop and the whole
call with `undefined`. -/
def validateConditionGo (env : DayjsEnv) (now : Int) (filters : List Filter)
    (data : Record) (acc : JVal) : JVal :=
  match filters with
  | [] => acc
  | f :: rest =>
    match validateConditionFilter env now f data with
    | .ret => .jundefined
    | .val res => validateConditionGo env now rest data (combine f.logicalOp acc res)

/-- Evaluation of a single filter node: a group recurses into
`validateCondition` on its children (an empty child list yields `true`,
the `!filters.length` guard of the recursive call); a leaf runs the
comparator dispatch. -/
def validateConditionFilter (env : DayjsEnv) (now : Int) (f : Filter)
    (data : Record) : LeafRes :=
  match f with
  | .group children _ =>
    .val (if children.isEmpty then .jbool true
          else validateConditionGo env now children data .jnull)
  | .leaf d _ => evalLeaf env now data d

end

/-- `validateCondition(context, filters, data, {client})`: `true` on an
empty filter list, otherwise the left-to-right fold of the siblings
starting from the `null` accumulator.  The `client` dialect only selects
a sub-day date format string in the source and is invisible at the
day granularity of this model, so it is not a parameter here. -/
def validateCondition (env : DayjsEnv) (now : Int) (filters : List Filter)
    (data : Record) : JVal :=
  if filters.isEmpty then .jbool true
  else validateConditionGo env now filters data .jnull

/-! ## Webhook dispatch: the single-record condition gate of `invokeWebhook` -/

/-- Outcome of the condition gate inside `invokeWebhook`: either one of
its early `return`s fires (the hook is skipped, nothing is delivered) or
control reaches the notification dispatch. -/
inductive GateOutcome where
  | skip
  | dispatch
deriving DecidableEq, Repr

/-- The condition-gating prefix of `invokeWebhook` for a single
(non-batch) record: when `hook.condition` is set and this is not a test
invocation, first skip if `prevData && filters.length &&
validateCondition(prevData)` (the "already notified" suppression), then
skip unless `validateCondition(newData)` is truthy; otherwise — and when
the gate is disabled — dispatch proceeds.  `prevData` is `none` when the
mutation carries no previous row. -/
def invokeWebhookSingleGate (env : DayjsEnv) (now : Int) (condition testHook : Bool)
    (filters : List Filter) (prevData : Option Record) (newData : Record) :
    GateOutcome :=
  if condition && !testHook then
    if (match prevData with
        | some p => !filters.isEmpty && truthy (validateCondition env now filters p)
        | none => false) then
      .skip
    else if !truthy (validateCondition env now filters newData) then
      .skip
    else
      .dispatch
  else
    .dispatch

/-! ## Webhook payload construction (`constructWebHookData`) -/

/-- The `newData`/`prevData` argument shapes `constructWebHookData`
distinguishes: absent (`null`/`undefined`), a single record, or an array
of records. -/
inductive HookData where
  | none
  | one (r : Record)
  | many (rs : List Record)
deriving Repr

/-- JavaScript truthiness of the hook data (an array is truthy even when
empty). -/
def HookData.isTruthy : HookData → Bool
  | .none => false
  | .one _ => true
  | .many _ => true

/-- `Array.isArray(x) ? x : [x]`. -/
def HookData.toRows : HookData → List Record
  | .none => []
  | .one r => [r]
  | .many rs => rs

/-- The `data` object of a v2 webhook envelope; `Option` fields model
keys that the conditional object spreads may omit entirely. -/
structure WebhookEnvelopeData where
  table_id : String
  table_name : String
  previous_rows : Option (List Record)
  rows : Option (List Record)
  rows_inserted : Option Nat
deriving Repr

/-- A v2 webhook envelope `{type, id, data}`. -/
structure WebhookEnvelope where
  type : String
  id : String
  data : WebhookEnvelopeData
deriving Repr

/-- `constructWebHookData` returns the v2 envelope for v2 hooks and the
raw new data otherwise. -/
inductive WebhookPayload where
  | v1 (raw : HookData)
  | v2 (envelope : WebhookEnvelope)
deriving Repr

/-- `constructWebHookData(hook, model, view, prevData, newData)`.
`freshId` stands for the `uuidv4()` call (an impure fresh-identifier
source passed in as a parameter); `event`/`operation` are the hook's
fields; the scope is the constant `'records'`.  For v2:
`previous_rows` is present iff `prevData` is truthy, `rows` iff the
operation is not `bulkInsert` and `newData` is truthy, and
`rows_inserted` iff the operation is `bulkInsert` (array length, else
1 for a truthy single record, else 0). -/
def constructWebHookData (version event operation freshId : String)
    (modelId modelTitle : String) (prevData newData : HookData) : WebhookPayload :=
  if version == "v2" then
    .v2
      { type := "records." ++ event ++ "." ++ operation
        id := freshId
        data :=
          { table_id := modelId
            table_name := modelTitle
            previous_rows :=
              if prevData.isTruthy then some prevData.toRows else Option.none
            rows :=
              if operation != "bulkInsert" && newData.isTruthy then
                some newData.toRows
              else Option.none
            rows_inserted :=
              if operation == "bulkInsert" then
                some (match newData with
                  | .many rs => rs.length
                  | .one _ => 1
                  | .none => 0)
              else Option.none } }
  else
    .v1 newData

/-! ## Hook-log execution time (`parseHrtimeToMilliSeconds`) -/

/-- Rounding to three decimal places, the numeric content of
JavaScript's `toFixed(3)` on the non-negative values produced here. -/
def toFixed3 (q : ℚ) : ℚ :=
  (⌊q * 1000 + 1 / 2⌋ : ℚ) / 1000

/-- `parseHrtimeToMilliSeconds(hrtime)` with `hrtime = [seconds,
nanoseconds]` as returned by `process.hrtime(start)`: the source
computes `(hrtime[0] + hrtime[1] / 1e6).toFixed(3)` — the seconds
component is added unscaled. -/
def parseHrtimeToMilliSeconds (hrtime : Nat × Nat) : ℚ :=
  toFixed3 ((hrtime.1 : ℚ) + (hrtime.2 : ℚ) / 1000000)

/-- The elapsed wall time of an `[seconds, nanoseconds]` pair expressed
in milliseconds, as the specification describes the logged
`execution_time`. -/
def elapsedWallTimeMs (hrtime : Nat × Nat) : ℚ :=
  (hrtime.1 : ℚ) * 1000 + (hrtime.2 : ℚ) / 1000000

/-! ## Template rendering (`parseBody`)

`parseBody` delegates to the external Handlebars library.  The library
is modelled here just far enough for the behaviours the source relies
on: a `(* (* path *) *)`-style mustache (written with braces in the real
syntax) substitutes the value found at `data.<key>` / `event.<key>` in
the rendering context `{data, event: data}` (an unknown path renders as
the empty string), and a mustache that is never closed makes
compilation fail.  The rendering context payload is abstracted to a
flat string map. -/

/-- The `{` character (written via its code point to keep template
strings readable as data). -/
def braceL : Char := Char.ofNat 123

/-- The `}` character. -/
def braceR : Char := Char.ofNat 125

/-- Path lookup in the Handlebars context `{data, event: data}`:
`data.<key>` and `event.<key>` resolve through the payload map, anything
else (including helper invocations) is unresolved and renders empty. -/
def hbLookupPath (payload : List (String × String)) (path : String) : Option String :=
  match jsSplitChar '.' (jsTrim path) with
  | ["data", k] =>
    match payload.find? (fun p => p.1 == k) with
    | some p => some p.2
    | Option.none => Option.none
  | ["event", k] =>
    match payload.find? (fun p => p.1 == k) with
    | some p => some p.2
    | Option.none => Option.none
  | _ => Option.none

/-- The characters substituted for one mustache body. -/
def hbSubst (payload : List (String × String)) (inside : List Char) : List Char :=
  match hbLookupPath payload (String.mk inside) with
  | some v => v.data
  | Option.none => []

/-- Scanner state for the Handlebars model: plain text, one opening
brace seen, inside a mustache collecting the path, or one closing brace
seen inside a mustache. -/
inductive HbState where
  | normal
  | openSeen
  | inside
  | closeSeen
deriving DecidableEq, Repr

/-- Handlebars rendering as a one-character-per-step scan.  In plain
text a double opening brace enters mustache mode (a lone opening brace
is literal text); inside a mustache the path is collected into `acc`
until a double closing brace, then the looked-up value is substituted.
Ending the input while still inside a mustache is an unbalanced
template: rendering fails (`none` models the thrown compile error). -/
def hbRenderAux (payload : List (String × String)) (st : HbState)
    (acc : List Char) : List Char → Option (List Char)
  | [] =>
    match st with
    | .normal => some []
    | .openSeen => some [braceL]
    | .inside => Option.none
    | .closeSeen => Option.none
  | c :: rest =>
    match st with
    | .normal =>
      if c == braceL then hbRenderAux payload .openSeen acc rest
      else
        match hbRenderAux payload .normal acc rest with
        | some t => some (c :: t)
        | Option.none => Option.none
    | .openSeen =>
      if c == braceL then hbRenderAux payload .inside [] rest
      else
        match hbRenderAux payload .normal acc rest with
        | some t => some (braceL :: c :: t)
        | Option.none => Option.none
    | .inside =>
      if c == braceR then hbRenderAux payload .closeSeen acc rest
      else hbRenderAux payload .inside (c :: acc) rest
    | .closeSeen =>
      if c == braceR then
        match hbRenderAux payload .normal [] rest with
        | some t => some (hbSubst payload acc.reverse ++ t)
        | Option.none => Option.none
      else hbRenderAux payload .inside (c :: braceR :: acc) rest

/-- `Handlebars.compile(template, {noEscape: true})({data, event: data})`
as modelled above; `none` is a thrown compile/render error. -/
def hbCompileRender (template : String) (payload : List (String × String)) :
    Option String :=
  match hbRenderAux payload HbState.normal [] template.data with
  | some cs => some (String.mk cs)
  | Option.none => Option.none

/-- `parseBody(template, data)`: a falsy (empty) template is returned
as-is; otherwise the template is compiled and rendered, and any failure
is caught and the original template string returned unmodified. -/
def parseBody (template : String) (payload : List (String × String)) : String :=
  if template == "" then template
  else
    match hbCompileRender template payload with
    | some s => s
    | Option.none => template

/-! ## The lookup select-query builder (`generateLookupSelectQuery`)

The builder walks a chain of relation hops resolved from metadata.  The
chain is presented here already resolved: the entry column's `uidt`, the
first relation hop, the nested hops the `while` loop traverses, and the
terminal value column (after the QrCode/Barcode substitution, which
replaces the terminal by the column it encodes before the loop runs).
`getTnPath` is modelled as the identity on table names, and
`getAliasGenerator('__lk_slt_')` as the monotonic counter it is
documented to be. -/

/-- Relation types (`RelationTypes` of nocodb-sdk). -/
inductive RelationType where
  | belongsTo
  | hasMany
  | manyToMany
  | oneToOne
deriving DecidableEq, Repr

/-- One relation hop: its declared type, the owning column's `meta.bt`
marker (used to disambiguate One-to-One), the child/parent column and
table names, and — for many-to-many — the junction model and its two
foreign-key columns. -/
structure RelHop where
  relType : RelationType
  metaBt : Bool
  childColumnName : String
  parentColumnName : String
  childTableName : String
  parentTableName : String
  mmTableName : String
  mmChildColName : String
  mmParentColName : String
deriving DecidableEq, Repr

/-- One-to-One normalization: `relationCol.meta?.bt` picks BelongsTo,
otherwise HasMany; other types pass through. -/
def resolveRelationType (h : RelHop) : RelationType :=
  match h.relType with
  | .oneToOne => if h.metaBt then .belongsTo else .hasMany
  | t => t

/-- The terminal value column of the chain. -/
structure TerminalCol where
  id : String
  column_name : String
  uidt : UIType
deriving DecidableEq, Repr

/-- A resolved lookup chain, the metadata `generateLookupSelectQuery`
walks. -/
structure LookupChain where
  entryUidt : UIType
  rootAlias : String
  firstHop : RelHop
  nestedHops : List RelHop
  terminal : TerminalCol
deriving Repr

/-- The select item placed on the built query for the terminal column:
the rollup/links and formula cases delegate to their expression
builders (modelled as tagged items carrying the column id), the
date-time family goes through the generic `selectObject` helper, and the
default is a plain aliased column reference. -/
inductive SelectItem where
  | rollup (colId : String)
  | formula (colId : String)
  | dateSelect (colId : String)
  | plainCol (ref : String)
deriving DecidableEq, Repr

/-- The knex query-builder value accumulated by the walk: the initial
correlated table, `where` correlations, `join`/`innerJoin` additions,
and the final select. -/
inductive SelectQb where
  | table (tableName tableAlias : String)
  | whereCol (q : SelectQb) (lhs rhs : String)
  | join (q : SelectQb) (tableName tableAlias lhs rhs : String)
  | innerJoin (q : SelectQb) (tableName tableAlias lhs rhs : String)
  | selectItem (q : SelectQb) (item : SelectItem)
deriving DecidableEq, Repr

/-- A `knex.raw(template, bindings)` fragment. -/
structure RawSql where
  template : String
  bindings : List String
deriving DecidableEq, Repr

/-- The result query of `generateLookupSelectQuery`: either the built
join query unchanged, or a dialect aggregation selected from the built
query as a derived subquery (`knex.select(raw).from(qb.as(alias))`). -/
inductive LookupQuery where
  | plain (q : SelectQb)
  | aggregated (agg : RawSql) (sub : SelectQb) (subAlias : String)
deriving DecidableEq, Repr

/-- Modelled from the spec: the error taxonomy of §7.  `NcError` is not
part of the examined sources; per the spec, `NcError.badRequest('Invalid
field type')` surfaces as `InvalidFieldType` and the unsupported
dialect / attachment grouping failures surface as
`UnsupportedOperation`. -/
inductive QueryError where
  | invalidFieldType (msg : String)
  | unsupportedOperation (msg : String)
deriving DecidableEq, Repr

/-- Dialect of the active connection (`isPg` / `isMySQL` / `isSqlite`
predicates; `other` is any further dialect). -/
inductive Dialect where
  | pg
  | mysql
  | sqlite
  | other
deriving DecidableEq, Repr

/-- `LOOKUP_VAL_SEPARATOR`. -/
def LOOKUP_VAL_SEPARATOR : String := "___"

/-- Modelled from the spec: `getAliasGenerator('__lk_slt_')` — not in
the examined sources — is a monotonic counter with the fixed prefix. -/
def aliasName (i : Nat) : String :=
  "__lk_slt_" ++ toString i

/-- `rootAlias || baseModelSqlv2.getTnPath(tableName)`: the root alias
when non-empty, otherwise the (identity-modelled) table path. -/
def rootAliasOr (rootAlias tableName : String) : String :=
  if rootAlias == "" then tableName else rootAlias

/-- The first relation hop (lines 101–201 of the builder): builds the
correlated subquery root and clears `isBtLookup` on a fan-out hop.
Returns the query, the next free alias counter, and the flag. -/
def buildFirstHop (rootAlias : String) (alias0 : String) (counter : Nat)
    (h : RelHop) : SelectQb × Nat × Bool :=
  match resolveRelationType h with
  | .belongsTo =>
    (.whereCol (.table h.parentTableName alias0)
      (alias0 ++ "." ++ h.parentColumnName)
      (rootAliasOr rootAlias h.childTableName ++ "." ++ h.childColumnName),
     counter, true)
  | .hasMany =>
    (.whereCol (.table h.childTableName alias0)
      (alias0 ++ "." ++ h.childColumnName)
      (rootAliasOr rootAlias h.parentTableName ++ "." ++ h.parentColumnName),
     counter, false)
  | .manyToMany =>
    let mmAlias := aliasName counter
    (.whereCol
      (.innerJoin (.table h.parentTableName alias0) h.mmTableName mmAlias
        (mmAlias ++ "." ++ h.mmParentColName)
        (alias0 ++ "." ++ h.parentColumnName))
      (mmAlias ++ "." ++ h.mmChildColName)
      (rootAliasOr rootAlias h.childTableName ++ "." ++ h.childColumnName),
     counter + 1, false)
  | .oneToOne =>
    -- unreachable: `resolveRelationType` never returns One-to-One
    (.table h.parentTableName alias0, counter, true)

/-- One iteration of the nested-hop `while` loop (lines 216–354): joins
the next hop onto `prevAlias`, clears `isBtLookup` on a fan-out hop, and
advances the alias cursor.  `alias0` is the entry alias used by the
many-to-many `where` correlation. -/
def buildNestedHop (alias0 : String) (qb : SelectQb) (prevAlias : String)
    (counter : Nat) (isBt : Bool) (h : RelHop) : SelectQb × String × Nat × Bool :=
  let nestedAlias := aliasName counter
  match resolveRelationType h with
  | .belongsTo =>
    (.join qb h.parentTableName nestedAlias
      (nestedAlias ++ "." ++ h.parentColumnName)
      (prevAlias ++ "." ++ h.childColumnName),
     nestedAlias, counter + 1, isBt)
  | .hasMany =>
    (.join qb h.childTableName nestedAlias
      (nestedAlias ++ "." ++ h.childColumnName)
      (prevAlias ++ "." ++ h.parentColumnName),
     nestedAlias, counter + 1, false)
  | .manyToMany =>
    let mmAlias := aliasName (counter + 1)
    (.whereCol
      (.innerJoin
        (.innerJoin qb h.mmTableName mmAlias
          (mmAlias ++ "." ++ h.mmChildColName)
          (prevAlias ++ "." ++ h.childColumnName))
        h.parentTableName nestedAlias
        (mmAlias ++ "." ++ h.mmParentColName)
        (nestedAlias ++ "." ++ h.parentColumnName))
      (mmAlias ++ "." ++ h.mmChildColName)
      (rootAliasOr alias0 h.childTableName ++ "." ++ h.childColumnName),
     nestedAlias, counter + 2, false)
  | .oneToOne =>
    (qb, nestedAlias, counter + 1, isBt)

/-- The whole nested-hop loop as a left fold. -/
def buildNestedHops (alias0 : String) : List RelHop → SelectQb → String → Nat →
    Bool → SelectQb × String × Nat × Bool
  | [], qb, prevAlias, counter, isBt => (qb, prevAlias, counter, isBt)
  | h :: hs, qb, prevAlias, counter, isBt =>
    match buildNestedHop alias0 qb prevAlias counter isBt h with
    | (qb2, prev2, counter2, isBt2) => buildNestedHops alias0 hs qb2 prev2 counter2 isBt2

/-- The terminal-column select (lines 356–431): rollup/links and
formula delegate to expression builders, the date-time family uses the
`selectObject` helper, Attachment is rejected unless `isAggregation`
(falling through to the default plain select when permitted), and the
default is the plain aliased column reference. -/
def buildTerminalSelect (isAggregation : Bool) (prevAlias : String)
    (t : TerminalCol) (qb : SelectQb) : Except QueryError SelectQb :=
  match t.uidt with
  | .Links => .ok (.selectItem qb (.rollup t.id))
  | .Rollup => .ok (.selectItem qb (.rollup t.id))
  | .Formula => .ok (.selectItem qb (.formula t.id))
  | .DateTime => .ok (.selectItem qb (.dateSelect t.id))
  | .LastModifiedTime => .ok (.selectItem qb (.dateSelect t.id))
  | .CreatedTime => .ok (.selectItem qb (.dateSelect t.id))
  | .Attachment =>
    if !isAggregation then
      .error (.unsupportedOperation "Group by using attachment column is not supported")
    else
      .ok (.selectItem qb
        (.plainCol (prevAlias ++ "." ++ t.column_name ++ " as " ++ t.id)))
  | _ =>
    .ok (.selectItem qb
      (.plainCol (prevAlias ++ "." ++ t.column_name ++ " as " ++ t.id)))

/-- The hop walk: the first hop (entry alias `aliasName 0`, counter
starting at 1) followed by the nested-hop loop.  Yields the query so
far, the final `prevAlias`, the next free alias counter, and the
`isBtLookup` flag. -/
def chainWalk (chain : LookupChain) : SelectQb × String × Nat × Bool :=
  buildNestedHops (aliasName 0) chain.nestedHops
    (buildFirstHop chain.rootAlias (aliasName 0) 1 chain.firstHop).1
    (aliasName 0)
    (buildFirstHop chain.rootAlias (aliasName 0) 1 chain.firstHop).2.1
    (buildFirstHop chain.rootAlias (aliasName 0) 1 chain.firstHop).2.2

/-- Lines 62–431: entry-type check, first hop, nested hops, terminal
select.  Returns the built query, the next free alias counter, and the
final `isBtLookup` flag. -/
def buildLookupQb (isAggregation : Bool) (chain : LookupChain) :
    Except QueryError (SelectQb × Nat × Bool) :=
  if chain.entryUidt != .Lookup && chain.entryUidt != .LinkToAnotherRecord then
    .error (.invalidFieldType "Invalid field type")
  else
    match buildTerminalSelect isAggregation
        (chainWalk chain).2.1 chain.terminal (chainWalk chain).1 with
    | .error e => .error e
    | .ok qb3 => .ok (qb3, (chainWalk chain).2.2.1, (chainWalk chain).2.2.2)

/-- Lines 432–506: if every hop was BelongsTo the built query is
returned directly; otherwise it is wrapped as a derived subquery under a
dialect-specific aggregation, and an unrecognized dialect fails. -/
def generateLookupSelectQuery (dialect : Dialect) (isAggregation : Bool)
    (chain : LookupChain) : Except QueryError LookupQuery :=
  match buildLookupQb isAggregation chain with
  | .error e => .error e
  | .ok (qb, counter, isBt) =>
    if isBt then .ok (.plain qb)
    else
      let subQueryAlias := aliasName counter
      match dialect with
      | .pg =>
        .ok (.aggregated ⟨"json_agg(??)::text", [chain.terminal.id]⟩ qb subQueryAlias)
      | .mysql =>
        .ok (.aggregated ⟨"cast(JSON_ARRAYAGG(??) as NCHAR)", [chain.terminal.id]⟩
          qb subQueryAlias)
      | .sqlite =>
        .ok (.aggregated ⟨"group_concat(??, ?)", [chain.terminal.id, LOOKUP_VAL_SEPARATOR]⟩
          qb subQueryAlias)
      | .other =>
        .error (.unsupportedOperation "This operation on Lookup/LTAR for this database")

/-! ## Shared helper definitions and lemmas -/

/-- The value a filter contributed to the fold, with the early-return
marker mapped to the `undefined` the whole call would produce. -/
def resValue : LeafRes → JVal
  | .ret => .jundefined
  | .val v => v

/-- With the `null` starting accumulator, any `logical_op` other than
`or`/`not` (the `and`/default case) passes the filter's own result
through: `(null ?? true) && res = res`. -/
theorem combine_jnull_default (lop : String) (res : JVal)
    (h1 : lop ≠ "or") (h2 : lop ≠ "not") : combine lop .jnull res = res := by
  unfold combine
  split
  · exact absurd rfl h1
  · exact absurd rfl h2
  · rfl

/-- A true boolean accumulator under the `and`/default case also passes
the result through. -/
theorem combine_jtrue_default (lop : String) (res : JVal)
    (h1 : lop ≠ "or") (h2 : lop ≠ "not") :
    combine lop (.jbool true) res = res := by
  unfold combine
  split
  · exact absurd rfl h1
  · exact absurd rfl h2
  · rfl

/-- A false boolean accumulator under the `and`/default case absorbs:
`false && res = false`. -/
theorem combine_jfalse_default (lop : String) (res : JVal)
    (h1 : lop ≠ "or") (h2 : lop ≠ "not") :
    combine lop (.jbool false) res = .jbool false := by
  unfold combine
  split
  · exact absurd rfl h1
  · exact absurd rfl h2
  · rfl

/-! ## C10 -/

/-- C10: `evaluate` on an empty filter sequence returns `true` — both at
the top level and when the empty sequence is the children of a nested
group, whose result is then `true` rather than the `null` accumulator
the bare left fold would produce. -/
theorem C10_empty_filter_sequence_is_true :
    (∀ (env : DayjsEnv) (now : Int) (data : Record),
      validateCondition env now [] data = .jbool true) ∧
    (∀ (env : DayjsEnv) (now : Int) (data : Record) (lop : String),
      validateConditionFilter env now (.group [] lop) data = .val (.jbool true)) := by
  exact ⟨fun _ _ _ => rfl, fun _ _ _ _ => rfl⟩

/-! ## C9 -/

/-- The leaf filter of the C9 counterexample: a Date column, comparison
operator `empty`, sub-operation `daysAgo`, no value. -/
def c9Leaf : LeafData :=
  { col := { title := "D", uidt := .Date, dateMonthFormat := false }
    comparison_op := "empty"
    comparison_sub_op := "daysAgo"
    value := .jnull }

/-- C9 counterexample: a date-family leaf filter with
`comparison_sub_op = 'daysAgo'` and no value whose comparison operator
is `empty` never reaches the date branch (the `empty`-family guard
routes it to the generic comparator), so `evaluate` returns `false`,
not `undefined`. -/
theorem C9_counterexample :
    validateCondition dayjsEnv0 0 [.leaf c9Leaf ""] [("D", .jstr "x")]
        = .jbool false ∧
    JVal.jbool false ≠ JVal.jundefined := by
  exact ⟨rfl, by decide⟩

/-- C9 (amended): for every date-family leaf filter whose comparison
operator is outside the `empty`/`blank`/`notempty`/`notblank` family,
with `comparison_sub_op = 'daysAgo'` and a falsy value, the bare
`return;` aborts the evaluation: the whole `evaluate` call returns
`undefined` (whatever siblings follow and whatever the accumulator
held), a value distinguishable from `false`. -/
theorem C9_daysAgo_without_value_returns_undefined
    (env : DayjsEnv) (now : Int) (data : Record) (col : ColumnT)
    (op subLop : String) (v : JVal) (rest : List Filter) (acc : JVal)
    (hdate : dateFamily col.uidt = true)
    (hop : emptyFamily op = false)
    (hval : truthy v = false) :
    validateConditionGo env now
        (.leaf { col := col, comparison_op := op, comparison_sub_op := "daysAgo",
                 value := v } subLop :: rest) data acc = .jundefined ∧
    validateCondition env now
        [.leaf { col := col, comparison_op := op, comparison_sub_op := "daysAgo",
                 value := v } subLop] data = .jundefined ∧
    JVal.jundefined ≠ JVal.jbool false := by
  have hleaf : evalLeaf env now data
      { col := col, comparison_op := op, comparison_sub_op := "daysAgo",
        value := v } = .ret := by
    unfold evalLeaf
    simp only [hdate, hop, Bool.not_false, Bool.and_self, if_true]
    unfold resolveSubOp
    simp [hval]
  refine ⟨?_, ?_, by decide⟩
  · unfold validateConditionGo validateConditionFilter
    rw [hleaf]
  · unfold validateCondition validateConditionGo validateConditionFilter
    rw [hleaf]
    rfl

/-- C9 witness: the amended statement instantiated at a concrete
filter. -/
theorem C9_daysAgo_without_value_returns_undefined_witness :
    validateCondition dayjsEnv0 0
        [.leaf { col := { title := "D", uidt := .Date, dateMonthFormat := false },
                 comparison_op := "eq", comparison_sub_op := "daysAgo",
                 value := .jnull } ""] [("D", .jstr "x")] = .jundefined :=
  (C9_daysAgo_without_value_returns_undefined dayjsEnv0 0 [("D", .jstr "x")]
    { title := "D", uidt := .Date, dateMonthFormat := false } "eq" "" .jnull [] .jnull
    rfl rfl rfl).2.1

/-! ## C8 -/

/-- C8: the `execution_time` written to the hook log is not the elapsed
wall time in milliseconds: `parseHrtimeToMilliSeconds` computes
`hrtime[0] + hrtime[1] / 1e6`, leaving the seconds component unscaled,
so an invocation that took exactly 2 seconds (`hrtime = [2, 0]`) is
logged as `2.000` while its elapsed wall time is `2000` milliseconds. -/
theorem C8_execution_time_seconds_unscaled :
    parseHrtimeToMilliSeconds (2, 0) = 2 ∧
    elapsedWallTimeMs (2, 0) = 2000 ∧
    parseHrtimeToMilliSeconds (2, 0) ≠ elapsedWallTimeMs (2, 0) := by
  have h1 : parseHrtimeToMilliSeconds (2, 0) = 2 := by
    unfold parseHrtimeToMilliSeconds toFixed3
    norm_num
  have h2 : elapsedWallTimeMs (2, 0) = 2000 := by
    unfold elapsedWallTimeMs
    norm_num
  exact ⟨h1, h2, by rw [h1, h2]; norm_num⟩

/-! ## C7 -/

/-- The well-formed example template `Hello ((data.name))` with mustache
braces (written via escapes). -/
def helloTemplate : String := "Hello \x7b\x7bdata.name\x7d\x7d"

/-- A malformed template: the mustache is never closed. -/
def unbalancedTemplate : String := "Hello \x7b\x7bdata.name"

/-- C7: `parseBody` never propagates a failure — whenever Handlebars
compilation/rendering fails the original template string is returned
unmodified (in particular the unbalanced template comes back verbatim
for every payload), and the well-formed template renders against
`{name: 'Ann'}` to `'Hello Ann'`. -/
theorem C7_parseBody_silent_fallback :
    (∀ (template : String) (payload : List (String × String)),
      hbCompileRender template payload = Option.none →
      parseBody template payload = template) ∧
    parseBody helloTemplate [("name", "Ann")] = "Hello Ann" ∧
    (∀ payload : List (String × String),
      parseBody unbalancedTemplate payload = unbalancedTemplate) := by
  refine ⟨?_, by decide, fun payload => rfl⟩
  intro template payload h
  unfold parseBody
  split
  · rfl
  · rw [h]

/-- C7 witness: the fallback clause applied to the unbalanced template
and the empty payload. -/
theorem C7_parseBody_silent_fallback_witness :
    parseBody unbalancedTemplate [] = unbalancedTemplate :=
  C7_parseBody_silent_fallback.1 unbalancedTemplate [] rfl

/-! ## C5 -/

/-- C5: every v2 `bulkInsert` hook call on an array of `N` new records
produces the envelope `records.<event>.bulkInsert` carrying the freshly
generated id, whose data holds the table id and name and
`rows_inserted = N`, and which has no `rows` key; in particular 5 rows
with event `after` give type `records.after.bulkInsert` and
`rows_inserted = 5`. -/
theorem C5_v2_bulkInsert_envelope :
    (∀ (event freshId modelId modelTitle : String) (prevData : HookData)
       (rs : List Record),
      constructWebHookData "v2" event "bulkInsert" freshId modelId modelTitle
          prevData (.many rs) =
        .v2
          { type := "records." ++ event ++ "." ++ "bulkInsert"
            id := freshId
            data :=
              { table_id := modelId
                table_name := modelTitle
                previous_rows :=
                  if prevData.isTruthy then some prevData.toRows else Option.none
                rows := Option.none
                rows_inserted := some rs.length } }) ∧
    constructWebHookData "v2" "after" "bulkInsert" "hook-id" "tbl1" "Table 1"
        .none (.many [[], [], [], [], []]) =
      .v2
        { type := "records.after.bulkInsert"
          id := "hook-id"
          data :=
            { table_id := "tbl1"
              table_name := "Table 1"
              previous_rows := Option.none
              rows := Option.none
              rows_inserted := some 5 } } := by
  constructor
  · intro event freshId modelId modelTitle prevData rs
    rfl
  · rfl

/-! ## C4 -/

/-- The "already notified" test of `invokeWebhook`'s single-record path:
`prevData && filters.length && (await validateCondition(..., prevData, ...))`. -/
def prevAlreadyMatched (env : DayjsEnv) (now : Int) (filters : List Filter) :
    Option Record → Bool
  | some p => !filters.isEmpty && truthy (validateCondition env now filters p)
  | Option.none => false

/-- C4: with `hook.condition` set and not a test invocation, the
single-record gate skips exactly when the previous data already matched
the filters (present previous row, non-empty filter list, truthy
evaluation) or the new data does not match; it dispatches exactly when
the previous data did not already match and the new data matches. -/
theorem C4_single_record_condition_gate (env : DayjsEnv) (now : Int)
    (filters : List Filter) (prevData : Option Record) (newData : Record) :
    (invokeWebhookSingleGate env now true false filters prevData newData
        = .skip ↔
      (prevAlreadyMatched env now filters prevData = true ∨
       truthy (validateCondition env now filters newData) = false)) ∧
    (invokeWebhookSingleGate env now true false filters prevData newData
        = .dispatch ↔
      (prevAlreadyMatched env now filters prevData = false ∧
       truthy (validateCondition env now filters newData) = true)) := by
  unfold invokeWebhookSingleGate prevAlreadyMatched
  cases prevData with
  | none =>
    cases hnew : truthy (validateCondition env now filters newData) <;>
      simp [hnew]
  | some p =>
    cases hprev : (!filters.isEmpty && truthy (validateCondition env now filters p)) <;>
      cases hnew : truthy (validateCondition env now filters newData) <;>
        simp [hprev, hnew]

/-- C4 witness: with an absent previous row and an empty filter list
(which evaluates to `true`), the gate dispatches. -/
theorem C4_single_record_condition_gate_witness :
    invokeWebhookSingleGate dayjsEnv0 0 true false [] Option.none [] = .dispatch :=
  (C4_single_record_condition_gate dayjsEnv0 0 [] Option.none []).2.mpr ⟨rfl, rfl⟩

/-! ## C6 -/

/-- A User-family column type is never in the date family. -/
theorem userFamily_not_dateFamily (u : UIType) (h : userFamily u = true) :
    dateFamily u = false := by
  cases u <;> simp_all [userFamily, dateFamily]

/-- Evaluating a leaf on a User-family column dispatches to the user
set comparator over the extracted record ids and the comma-split,
trimmed filter values. -/
theorem evalLeaf_userFamily (env : DayjsEnv) (now : Int) (data : Record)
    (col : ColumnT) (op subOp : String) (v : JVal)
    (hcol : userFamily col.uidt = true) :
    evalLeaf env now data
        { col := col, comparison_op := op, comparison_sub_op := subOp, value := v }
      = .val (.jbool (userCompareOp op (userIdsOf (getField data col.title))
          (splitTrim v))) := by
  unfold evalLeaf
  simp [userFamily_not_dateFamily col.uidt hcol, hcol]

/-- Evaluating a singleton filter list whose only element is a leaf with
an `and`/default `logical_op` yields that leaf's own result. -/
theorem validateCondition_singleton_leaf (env : DayjsEnv) (now : Int)
    (data : Record) (d : LeafData) (lop : String) (b : Bool)
    (h1 : lop ≠ "or") (h2 : lop ≠ "not")
    (hleaf : evalLeaf env now data d = .val (.jbool b)) :
    validateCondition env now [.leaf d lop] data = .jbool b := by
  unfold validateCondition validateConditionGo validateConditionFilter
  rw [hleaf]
  simp only [List.isEmpty_cons, if_false, Bool.false_eq_true]
  unfold validateConditionGo
  show combine (Filter.leaf d lop).logicalOp .jnull (.jbool b) = .jbool b
  rw [show (Filter.leaf d lop).logicalOp = lop from rfl]
  rw [combine_jnull_default lop _ h1 h2]

/-- C6: for a leaf filter on a User/CreatedBy/LastModifiedBy column,
`evaluate` extracts the record's user-id set and the comma-split,
trimmed filter-value set; `anyof` is intersection non-emptiness,
`nanyof` its negation, `allof` the subset test of filter ids in record
ids, `nallof` its negation, `empty`/`blank` emptiness of the record
ids, `notempty`/`notblank` non-emptiness, and every other comparison
operator evaluates to `false` rather than erroring; record ids
`{u1, u2}` against filter value `"u2, u3"` give `true` under `anyof`
and `false` under `allof`. -/
theorem C6_user_filter_set_semantics (env : DayjsEnv) (now : Int) (data : Record)
    (col : ColumnT) (subOp : String) (v : JVal) (lop : String)
    (hcol : userFamily col.uidt = true)
    (h1 : lop ≠ "or") (h2 : lop ≠ "not") :
    (validateCondition env now
        [.leaf { col := col, comparison_op := "anyof", comparison_sub_op := subOp,
                 value := v } lop] data
      = .jbool (decide (∃ id ∈ userIdsOf (getField data col.title),
          id ∈ splitTrim v))) ∧
    (validateCondition env now
        [.leaf { col := col, comparison_op := "nanyof", comparison_sub_op := subOp,
                 value := v } lop] data
      = .jbool (decide (¬ ∃ id ∈ userIdsOf (getField data col.title),
          id ∈ splitTrim v))) ∧
    (validateCondition env now
        [.leaf { col := col, comparison_op := "allof", comparison_sub_op := subOp,
                 value := v } lop] data
      = .jbool (decide (∀ fv ∈ splitTrim v,
          fv ∈ userIdsOf (getField data col.title)))) ∧
    (validateCondition env now
        [.leaf { col := col, comparison_op := "nallof", comparison_sub_op := subOp,
                 value := v } lop] data
      = .jbool (decide (¬ ∀ fv ∈ splitTrim v,
          fv ∈ userIdsOf (getField data col.title)))) ∧
    (∀ op, op = "empty" ∨ op = "blank" →
      validateCondition env now
        [.leaf { col := col, comparison_op := op, comparison_sub_op := subOp,
                 value := v } lop] data
      = .jbool (decide (userIdsOf (getField data col.title) = []))) ∧
    (∀ op, op = "notempty" ∨ op = "notblank" →
      validateCondition env now
        [.leaf { col := col, comparison_op := op, comparison_sub_op := subOp,
                 value := v } lop] data
      = .jbool (decide (userIdsOf (getField data col.title) ≠ []))) ∧
    (∀ op, op ∉ (["anyof", "nanyof", "allof", "nallof", "empty", "blank",
        "notempty", "notblank"] : List String) →
      validateCondition env now
        [.leaf { col := col, comparison_op := op, comparison_sub_op := subOp,
                 value := v } lop] data
      = .jbool false) ∧
    validateCondition dayjsEnv0 0
        [.leaf { col := { title := "U", uidt := .User, dateMonthFormat := false },
                 comparison_op := "anyof", comparison_sub_op := "",
                 value := .jstr "u2, u3" } ""]
        [("U", .jusers ["u1", "u2"])] = .jbool true ∧
    validateCondition dayjsEnv0 0
        [.leaf { col := { title := "U", uidt := .User, dateMonthFormat := false },
                 comparison_op := "allof", comparison_sub_op := "",
                 value := .jstr "u2, u3" } ""]
        [("U", .jusers ["u1", "u2"])] = .jbool false := by
  have hS : ∀ op, validateCondition env now
      [.leaf { col := col, comparison_op := op, comparison_sub_op := subOp,
               value := v } lop] data
      = .jbool (userCompareOp op (userIdsOf (getField data col.title))
          (splitTrim v)) := fun op =>
    validateCondition_singleton_leaf env now data _ lop _ h1 h2
      (evalLeaf_userFamily env now data col op subOp v hcol)
  refine ⟨?_, ?_, ?_, ?_, ?_, ?_, ?_, by decide, by decide⟩
  · rw [hS "anyof"]
    congr 1
    rw [Bool.eq_iff_iff]
    simp [userCompareOp, List.any_eq_true]
  · rw [hS "nanyof"]
    congr 1
    rw [Bool.eq_iff_iff]
    simp [userCompareOp, List.any_eq_true]
  · rw [hS "allof"]
    congr 1
    rw [Bool.eq_iff_iff]
    simp [userCompareOp, List.all_eq_true]
  · rw [hS "nallof"]
    congr 1
    rw [Bool.eq_iff_iff]
    simp [userCompareOp, List.all_eq_true]
  · rintro op (rfl | rfl) <;>
      · rw [hS _]
        congr 1
        rw [Bool.eq_iff_iff]
        simp [userCompareOp, List.isEmpty_iff]
  · rintro op (rfl | rfl) <;>
      · rw [hS _]
        congr 1
        rw [Bool.eq_iff_iff]
        simp [userCompareOp, List.isEmpty_iff]
  · intro op hop
    rw [hS op]
    congr 1
    simp only [List.mem_cons, List.not_mem_nil, or_false, not_or] at hop
    obtain ⟨n1, n2, n3, n4, n5, n6, n7, n8⟩ := hop
    unfold userCompareOp
    split <;> simp_all

/-- C6 witness: the `anyof` clause at record ids `{u1, u2}` and filter
value `"u2, u3"` evaluates to `true`. -/
theorem C6_user_filter_set_semantics_witness :
    validateCondition dayjsEnv0 0
        [.leaf { col := { title := "U", uidt := .User, dateMonthFormat := false },
                 comparison_op := "anyof", comparison_sub_op := "",
                 value := .jstr "u2, u3" } ""]
        [("U", .jusers ["u1", "u2"])] = .jbool true := by
  have h := (C6_user_filter_set_semantics dayjsEnv0 0 [("U", .jusers ["u1", "u2"])]
    { title := "U", uidt := .User, dateMonthFormat := false } "" (.jstr "u2, u3")
    "" rfl (by decide) (by decide)).1
  rw [h]
  decide

/-! ## C1 -/

/-- Booleans combined under the `and`/default case multiply. -/
theorem combine_bool_default (lop : String) (a r : Bool)
    (h1 : lop ≠ "or") (h2 : lop ≠ "not") :
    combine lop (.jbool a) (.jbool r) = .jbool (a && r) := by
  cases a
  · rw [combine_jfalse_default lop _ h1 h2]
    rfl
  · rw [combine_jtrue_default lop _ h1 h2]
    rfl

/-- When no filter triggers the date-branch early return, the sibling
loop is exactly a left fold of `combine` over each filter's result. -/
theorem validateConditionGo_eq_foldl (env : DayjsEnv) (now : Int) (data : Record) :
    ∀ (fs : List Filter) (acc : JVal),
      (∀ f ∈ fs, validateConditionFilter env now f data ≠ .ret) →
      validateConditionGo env now fs data acc =
        fs.foldl (fun a f =>
          combine f.logicalOp a (resValue (validateConditionFilter env now f data)))
          acc := by
  intro fs
  induction fs with
  | nil => intro acc _; rfl
  | cons f rest ih =>
    intro acc h
    unfold validateConditionGo
    cases hf : validateConditionFilter env now f data with
    | ret => exact absurd hf (h f (List.mem_cons_self f rest))
    | val res =>
      rw [List.foldl_cons, hf]
      exact ih _ (fun g hg => h g (List.mem_cons_of_mem f hg))

/-- Folding boolean results under `and`/default operators onto a
boolean accumulator is conjunction. -/
theorem validateConditionGo_allAnd (env : DayjsEnv) (now : Int) (data : Record) :
    ∀ (fs : List Filter),
      (∀ f ∈ fs, (f.logicalOp ≠ "or" ∧ f.logicalOp ≠ "not") ∧
        ∃ b, validateConditionFilter env now f data = .val (.jbool b)) →
      ∀ (b : Bool),
        validateConditionGo env now fs data (.jbool b) =
          .jbool (b && fs.all (fun f =>
            truthy (resValue (validateConditionFilter env now f data)))) := by
  intro fs
  induction fs with
  | nil =>
    intro _ b
    simp [validateConditionGo]
  | cons f rest ih =>
    intro h b
    obtain ⟨⟨ho, hn⟩, bb, hf⟩ := h f (List.mem_cons_self f rest)
    unfold validateConditionGo
    rw [hf]
    show validateConditionGo env now rest data
      (combine f.logicalOp (.jbool b) (.jbool bb)) = _
    rw [combine_bool_default f.logicalOp b bb ho hn]
    rw [ih (fun g hg => h g (List.mem_cons_of_mem f hg)) (b && bb)]
    rw [List.all_cons, hf]
    show _ = JVal.jbool (b && (truthy (resValue (.val (.jbool bb))) && rest.all _))
    rw [show truthy (resValue (.val (.jbool bb))) = bb from rfl]
    rw [Bool.and_assoc]

/-- The record of the three-sibling example. -/
def c1ExampleData : Record :=
  [("A", .jstr "x"), ("B", .jstr "y"), ("C", .jstr "z")]

/-- The three-sibling filter list `[eq→true, or:eq→false, not:eq→false]`. -/
def c1ExampleFilters : List Filter :=
  [ .leaf { col := { title := "A", uidt := .SingleLineText, dateMonthFormat := false },
            comparison_op := "eq", comparison_sub_op := "", value := .jstr "x" } "and",
    .leaf { col := { title := "B", uidt := .SingleLineText, dateMonthFormat := false },
            comparison_op := "eq", comparison_sub_op := "", value := .jstr "q" } "or",
    .leaf { col := { title := "C", uidt := .SingleLineText, dateMonthFormat := false },
            comparison_op := "eq", comparison_sub_op := "", value := .jstr "q" } "not" ]

/-- C1: on a non-empty filter list whose siblings all produce a result,
`evaluate` is the left-to-right fold from the `null` accumulator where
each filter's own `logical_op` combines its result (`or` is
accumulator-OR-result, `not` is accumulator-AND-NOT-result, `and` or
unset is accumulator-defaulting-to-true AND result); a tree of only
`and`/default operators with boolean leaf results is the conjunction of
those results; and the three-sibling tree `[eq→true, or:eq→false,
not:eq→false]` folds to `true`. -/
theorem C1_left_fold_semantics :
    (∀ (env : DayjsEnv) (now : Int) (data : Record) (fs : List Filter),
      fs ≠ [] →
      (∀ f ∈ fs, validateConditionFilter env now f data ≠ .ret) →
      validateCondition env now fs data =
        fs.foldl (fun acc f =>
          combine f.logicalOp acc (resValue (validateConditionFilter env now f data)))
          .jnull) ∧
    (∀ (a r : Bool) (lop : String),
      combine "or" (.jbool a) (.jbool r) = .jbool (a || r) ∧
      combine "or" .jnull (.jbool r) = .jbool r ∧
      combine "not" (.jbool a) (.jbool r) = .jbool (a && !r) ∧
      (lop ≠ "or" → lop ≠ "not" →
        combine lop (.jbool a) (.jbool r) = .jbool (a && r)) ∧
      (lop ≠ "or" → lop ≠ "not" →
        combine lop .jnull (.jbool r) = .jbool r)) ∧
    (∀ (env : DayjsEnv) (now : Int) (data : Record) (fs : List Filter),
      fs ≠ [] →
      (∀ f ∈ fs, (f.logicalOp ≠ "or" ∧ f.logicalOp ≠ "not") ∧
        ∃ b, validateConditionFilter env now f data = .val (.jbool b)) →
      validateCondition env now fs data =
        .jbool (fs.all (fun f =>
          truthy (resValue (validateConditionFilter env now f data))))) ∧
    validateCondition dayjsEnv0 0 c1ExampleFilters c1ExampleData = .jbool true := by
  refine ⟨?_, ?_, ?_, by decide⟩
  · intro env now data fs hne h
    unfold validateCondition
    rw [if_neg (by simpa using hne)]
    exact validateConditionGo_eq_foldl env now data fs .jnull h
  · intro a r lop
    refine ⟨by cases a <;> rfl, rfl, by cases a <;> rfl, ?_, ?_⟩
    · intro h1 h2
      exact combine_bool_default lop a r h1 h2
    · intro h1 h2
      exact combine_jnull_default lop _ h1 h2
  · intro env now data fs hne h
    match fs, hne with
    | f :: rest, _ =>
      obtain ⟨⟨ho, hn⟩, b0, hf⟩ := h f (List.mem_cons_self f rest)
      unfold validateCondition
      rw [if_neg (by simp)]
      unfold validateConditionGo
      rw [hf]
      show validateConditionGo env now rest data
        (combine f.logicalOp .jnull (.jbool b0)) = _
      rw [combine_jnull_default f.logicalOp _ ho hn]
      rw [validateConditionGo_allAnd env now data rest
        (fun g hg => h g (List.mem_cons_of_mem f hg)) b0]
      rw [List.all_cons, hf]
      rfl

/-- C1 witness: the fold clause instantiated at the three-sibling
example. -/
theorem C1_left_fold_semantics_witness :
    validateCondition dayjsEnv0 0 c1ExampleFilters c1ExampleData =
      c1ExampleFilters.foldl (fun acc f =>
        combine f.logicalOp acc
          (resValue (validateConditionFilter dayjsEnv0 0 f c1ExampleData)))
        .jnull :=
  C1_left_fold_semantics.1 dayjsEnv0 0 c1ExampleData c1ExampleFilters
    (by unfold c1ExampleFilters; exact List.cons_ne_nil _ _) (by decide)

/-! ## C2 -/

/-- One-to-One is always normalized away. -/
theorem resolveRelationType_ne_oneToOne (h : RelHop) :
    resolveRelationType h ≠ .oneToOne := by
  unfold resolveRelationType
  cases h.relType <;> simp
  cases h.metaBt <;> simp

/-- The chain has only BelongsTo hops after One-to-One normalization. -/
def chainIsBt (chain : LookupChain) : Bool :=
  (resolveRelationType chain.firstHop == .belongsTo) &&
    chain.nestedHops.all (fun h => resolveRelationType h == .belongsTo)

/-- The flag component of the first hop is exactly "this hop is
BelongsTo". -/
theorem buildFirstHop_flag (rootAlias alias0 : String) (c : Nat) (h : RelHop) :
    (buildFirstHop rootAlias alias0 c h).2.2 =
      (resolveRelationType h == .belongsTo) := by
  unfold buildFirstHop
  cases hr : resolveRelationType h
  · rfl
  · rfl
  · rfl
  · exact absurd hr (resolveRelationType_ne_oneToOne h)

/-- The nested-hop fold clears the flag exactly when some hop is a
fan-out (HasMany or ManyToMany) hop, and otherwise keeps it. -/
theorem buildNestedHops_flag (alias0 : String) :
    ∀ (hs : List RelHop) (qb : SelectQb) (pa : String) (c : Nat) (b : Bool),
      (buildNestedHops alias0 hs qb pa c b).2.2.2 =
        (b && hs.all (fun h => resolveRelationType h == .belongsTo)) := by
  intro hs
  induction hs with
  | nil =>
    intro qb pa c b
    simp [buildNestedHops]
  | cons h rest ih =>
    intro qb pa c b
    unfold buildNestedHops buildNestedHop
    cases hr : resolveRelationType h
    · rw [List.all_cons, hr]
      simp only [beq_self_eq_true, Bool.true_and]
      exact ih _ _ _ b
    · rw [List.all_cons, hr]
      simp only []
      rw [ih _ _ _ false]
      simp
    · rw [List.all_cons, hr]
      simp only []
      rw [ih _ _ _ false]
      simp
    · exact absurd hr (resolveRelationType_ne_oneToOne h)

/-- C2: the `isBtLookup` flag computed by the builder is true exactly
when every (normalized) hop of the chain is BelongsTo; when it stays
true the built join query is returned with no aggregation wrapper, and
when any HasMany or ManyToMany hop cleared it the built query is
wrapped as a derived subquery under a dialect aggregation (on every
dialect that has one). -/
theorem C2_isBtLookup_controls_aggregation (isAgg : Bool) (chain : LookupChain)
    (qb : SelectQb) (n : Nat) (flag : Bool) :
    (buildLookupQb isAgg chain = .ok (qb, n, flag) → flag = chainIsBt chain) ∧
    (buildLookupQb isAgg chain = .ok (qb, n, true) →
      ∀ dialect, generateLookupSelectQuery dialect isAgg chain = .ok (.plain qb)) ∧
    (buildLookupQb isAgg chain = .ok (qb, n, false) →
      ∀ dialect, dialect ≠ .other →
        ∃ raw, generateLookupSelectQuery dialect isAgg chain =
          .ok (.aggregated raw qb (aliasName n))) := by
  refine ⟨?_, ?_, ?_⟩
  · intro hb
    unfold buildLookupQb at hb
    split at hb
    · cases hb
    · split at hb
      · cases hb
      · injection hb with hb2
        injection hb2 with _ hb3
        injection hb3 with _ hflag
        rw [← hflag]
        unfold chainWalk chainIsBt
        rw [buildNestedHops_flag, buildFirstHop_flag]
  · intro hb dialect
    unfold generateLookupSelectQuery
    rw [hb]
    rfl
  · intro hb dialect hd
    unfold generateLookupSelectQuery
    rw [hb]
    cases dialect with
    | pg => exact ⟨_, rfl⟩
    | mysql => exact ⟨_, rfl⟩
    | sqlite => exact ⟨_, rfl⟩
    | other => exact absurd rfl hd

/-- A depth-1 BelongsTo-only chain for the C2 witness. -/
def c2Chain : LookupChain :=
  { entryUidt := .Lookup
    rootAlias := ""
    firstHop :=
      { relType := .belongsTo
        metaBt := false
        childColumnName := "fk"
        parentColumnName := "id"
        childTableName := "child"
        parentTableName := "parent"
        mmTableName := ""
        mmChildColName := ""
        mmParentColName := "" }
    nestedHops := []
    terminal := { id := "colid", column_name := "name", uidt := .SingleLineText } }

/-- The query the builder produces for `c2Chain`. -/
def c2Qb : SelectQb :=
  .selectItem
    (.whereCol (.table "parent" "__lk_slt_0") "__lk_slt_0.id" "child.fk")
    (.plainCol "__lk_slt_0.name as colid")

/-- C2 witness: the BelongsTo-only chain returns the plain built query. -/
theorem C2_isBtLookup_controls_aggregation_witness :
    generateLookupSelectQuery .pg false c2Chain = .ok (.plain c2Qb) :=
  (C2_isBtLookup_controls_aggregation false c2Chain c2Qb 1 true).2.1 (by rfl) .pg

/-! ## C3 -/

/-- C3: whenever the chain has a fan-out hop (the built flag is false),
the aggregation over the derived subquery is `json_agg(col)::text` on
Postgres, `JSON_ARRAYAGG(col)` cast to text (`NCHAR`) on MySQL, and
`group_concat(col, '___')` with the fixed separator `'___'` on SQLite;
any other dialect fails with `UnsupportedOperation` instead of
returning a query. -/
theorem C3_dialect_aggregation (isAgg : Bool) (chain : LookupChain)
    (qb : SelectQb) (n : Nat)
    (hb : buildLookupQb isAgg chain = .ok (qb, n, false)) :
    generateLookupSelectQuery .pg isAgg chain =
      .ok (.aggregated ⟨"json_agg(??)::text", [chain.terminal.id]⟩ qb (aliasName n)) ∧
    generateLookupSelectQuery .mysql isAgg chain =
      .ok (.aggregated ⟨"cast(JSON_ARRAYAGG(??) as NCHAR)", [chain.terminal.id]⟩
        qb (aliasName n)) ∧
    generateLookupSelectQuery .sqlite isAgg chain =
      .ok (.aggregated ⟨"group_concat(??, ?)", [chain.terminal.id, LOOKUP_VAL_SEPARATOR]⟩
        qb (aliasName n)) ∧
    LOOKUP_VAL_SEPARATOR = "___" ∧
    generateLookupSelectQuery .other isAgg chain =
      .error (.unsupportedOperation
        "This operation on Lookup/LTAR for this database") := by
  refine ⟨?_, ?_, ?_, rfl, ?_⟩ <;>
    · unfold generateLookupSelectQuery
      rw [hb]
      rfl

/-- A depth-1 HasMany chain for the C3 witness. -/
def c3Chain : LookupChain :=
  { entryUidt := .LinkToAnotherRecord
    rootAlias := ""
    firstHop :=
      { relType := .hasMany
        metaBt := false
        childColumnName := "fk"
        parentColumnName := "id"
        childTableName := "child"
        parentTableName := "parent"
        mmTableName := ""
        mmChildColName := ""
        mmParentColName := "" }
    nestedHops := []
    terminal := { id := "colid", column_name := "name", uidt := .SingleLineText } }

/-- The query the builder produces for `c3Chain`. -/
def c3Qb : SelectQb :=
  .selectItem
    (.whereCol (.table "child" "__lk_slt_0") "__lk_slt_0.fk" "parent.id")
    (.plainCol "__lk_slt_0.name as colid")

/-- C3 witness: the SQLite aggregation over the HasMany chain uses
`group_concat` with the `'___'` separator. -/
theorem C3_dialect_aggregation_witness :
    generateLookupSelectQuery .sqlite false c3Chain =
      .ok (.aggregated ⟨"group_concat(??, ?)", ["colid", "___"]⟩ c3Qb "__lk_slt_1") :=
  (C3_dialect_aggregation false c3Chain c3Qb 1 (by rfl)).2.2.1

end Nocodb
